import Mathlib

/-!
Verification development for the NTFS MFT-record scanner core
(src/ntfs_logic.rs of carrot-ntfs-recovery).

Modelling conventions:
  - a byte buffer is a List Nat whose elements are byte values (0..255);
    out-of-bounds reads that Rust performs only after an explicit bounds
    check are modelled with List.getD (the default is never exercised);
  - a Rust slice-indexing expression that can panic (index out of range)
    is modelled in the Except Unit monad: Except.error () is a panic;
  - machine integers are Nat, with explicit reduction mod 2 to the 64
    where the Rust code can wrap (i64 addition in data-run decoding);
  - i64 values are Int restricted to the range -2^63 .. 2^63 - 1;
  - Rust String values are modelled as lists of Unicode scalar values
    (List Nat), produced by executable UTF-16 and UTF-8 decoders that
    mirror String::from_utf16 / String::from_utf8;
  - chrono DateTime of Utc is modelled as a (seconds, nanoseconds) pair;
    Utc.timestamp_opt(secs, nanos).single() succeeds exactly when secs
    lies between the timestamps of chrono MIN_UTC (-8334632851200) and
    MAX_UTC (8210298412799) and nanos < 2000000000.
-/

/-- Little-endian u16 read at offset o; callers establish bounds first
(mirrors u16::from_le_bytes over buf[o..o+2]). -/
def readU16 (b : List Nat) (o : Nat) : Nat :=
  b.getD o 0 + 256 * b.getD (o + 1) 0

/-- Little-endian u32 read at offset o. -/
def readU32 (b : List Nat) (o : Nat) : Nat :=
  readU16 b o + 65536 * readU16 b (o + 2)

/-- Little-endian u64 read at offset o. -/
def readU64 (b : List Nat) (o : Nat) : Nat :=
  readU32 b o + 4294967296 * readU32 b (o + 4)

/-- The Rust slice expression buf[lo..hi], as a pure function (used only
where the source has already established lo <= hi <= buf.len()). -/
def sliceBytes (b : List Nat) (lo hi : Nat) : List Nat :=
  (b.drop lo).take (hi - lo)

/-- Little-endian value of the n bytes starting at offset o
(mirrors the byte-or-shift accumulation loops in parse_data_runs;
for disjoint bit ranges bitwise or equals addition). -/
def leVal (b : List Nat) (o : Nat) : Nat → Nat
  | 0 => 0
  | n + 1 => leVal b o n + b.getD (o + n) 0 * 256 ^ n

/-- UTF-16 code units from a byte list, little endian, two bytes per unit;
a trailing odd byte is dropped (mirrors chunks_exact(2)). -/
def bytesToU16s : List Nat → List Nat
  | b0 :: b1 :: rest => (b0 + 256 * b1) :: bytesToU16s rest
  | _ => []

/-- Decode UTF-16 code units to Unicode scalar values; fails on an
unpaired surrogate (mirrors String::from_utf16(..).ok()). -/
def decodeUtf16 : List Nat → Option (List Nat)
  | [] => some []
  | u :: rest =>
    if u < 0xD800 ∨ 0xE000 ≤ u then (decodeUtf16 rest).map (u :: ·)
    else if 0xDC00 ≤ u then none
    else
      match rest with
      | [] => none
      | v :: rest2 =>
        if 0xDC00 ≤ v ∧ v < 0xE000 then
          (decodeUtf16 rest2).map ((0x10000 + (u - 0xD800) * 1024 + (v - 0xDC00)) :: ·)
        else none

/-- Decode strict UTF-8 bytes to Unicode scalar values; fails on any
ill-formed sequence (mirrors String::from_utf8(..).ok()). -/
def decodeUtf8 : List Nat → Option (List Nat)
  | [] => some []
  | b :: rest =>
    if b < 0x80 then (decodeUtf8 rest).map (b :: ·)
    else if b < 0xC2 then none
    else if b ≤ 0xDF then
      match rest with
      | c1 :: r =>
        if 0x80 ≤ c1 ∧ c1 ≤ 0xBF then
          (decodeUtf8 r).map (((b - 0xC0) * 64 + (c1 - 0x80)) :: ·)
        else none
      | _ => none
    else if b ≤ 0xEF then
      match rest with
      | c1 :: c2 :: r =>
        if (if b = 0xE0 then 0xA0 else 0x80) ≤ c1 ∧
           c1 ≤ (if b = 0xED then 0x9F else 0xBF) ∧
           0x80 ≤ c2 ∧ c2 ≤ 0xBF then
          (decodeUtf8 r).map (((b - 0xE0) * 4096 + (c1 - 0x80) * 64 + (c2 - 0x80)) :: ·)
        else none
      | _ => none
    else if b ≤ 0xF4 then
      match rest with
      | c1 :: c2 :: c3 :: r =>
        if (if b = 0xF0 then 0x90 else 0x80) ≤ c1 ∧
           c1 ≤ (if b = 0xF4 then 0x8F else 0xBF) ∧
           0x80 ≤ c2 ∧ c2 ≤ 0xBF ∧ 0x80 ≤ c3 ∧ c3 ≤ 0xBF then
          (decodeUtf8 r).map
            (((b - 0xF0) * 262144 + (c1 - 0x80) * 4096 + (c2 - 0x80) * 64 + (c3 - 0x80)) :: ·)
        else none
      | _ => none
    else none

/-- Wrapping reduction of an Int into the i64 range (Rust release-mode
i64 addition wraps; the constants are 2^63 and 2^64). -/
def wrapI64 (x : Int) : Int :=
  (x + 9223372036854775808) % 18446744073709551616 - 9223372036854775808

/-- Reinterpret a u64 value as i64 (Rust ft as i64): values at or above
2^63 become negative by subtracting 2^64. -/
def i64ofU64 (ft : Nat) : Int :=
  if ft < 9223372036854775808 then (ft : Int) else (ft : Int) - 18446744073709551616

/-- A chrono UTC instant: Unix seconds and subsecond nanoseconds. -/
structure UtcInstant where
  secs : Int
  nanos : Nat
deriving DecidableEq

/-- Model of chrono Utc.timestamp_opt(secs, nanos).single(): defined
exactly when nanos < 2000000000 and secs lies between the timestamps of
chrono MIN_UTC and MAX_UTC. -/
def timestampOpt (secs : Int) (nanos : Nat) : Option UtcInstant :=
  if -8334632851200 ≤ secs ∧ secs ≤ 8210298412799 ∧ nanos < 2000000000 then
    some ⟨secs, nanos⟩
  else none

/-- filetime_to_utc: 0 maps to none; otherwise the u64 is reinterpreted
as i64, divided (truncating toward zero, Int.tdiv, as Rust i64 division)
by 10^7 and shifted by the 1601..1970 epoch difference; the nanosecond
part uses the unsigned value. -/
def filetime_to_utc (ft : Nat) : Option UtcInstant :=
  if ft = 0 then none
  else
    timestampOpt (Int.tdiv (i64ofU64 ft) 10000000 - 11644473600) (ft % 10000000 * 100)

/-- FileAttributes: the 14 decoded flag booleans. -/
structure FileAttributes where
  readonly : Bool
  hidden : Bool
  system : Bool
  directory : Bool
  archive : Bool
  device : Bool
  normal : Bool
  temporary : Bool
  sparse_file : Bool
  reparse_point : Bool
  compressed : Bool
  offline : Bool
  not_content_indexed : Bool
  encrypted : Bool
deriving DecidableEq

/-- FileAttributes::from_flags. -/
def FileAttributes.from_flags (flags : Nat) : FileAttributes :=
  ⟨flags &&& 0x01 != 0, flags &&& 0x02 != 0, flags &&& 0x04 != 0,
   flags &&& 0x10 != 0, flags &&& 0x20 != 0, flags &&& 0x40 != 0,
   flags &&& 0x80 != 0, flags &&& 0x100 != 0, flags &&& 0x200 != 0,
   flags &&& 0x400 != 0, flags &&& 0x800 != 0, flags &&& 0x1000 != 0,
   flags &&& 0x2000 != 0, flags &&& 0x4000 != 0⟩

/-- AlternateFilename record. -/
structure AlternateFilename where
  name : List Nat
  namespace_code : Nat
deriving DecidableEq

/-- DataRun record: absolute LCN (i64) and cluster count (u64). -/
structure DataRun where
  cluster_offset : Int
  cluster_count : Nat
deriving DecidableEq

/-- DataStream record. -/
structure DataStream where
  name : Option (List Nat)
  resident : Bool
  size : Nat
  allocated_size : Nat
  resident_data : Option (List Nat)
  data_runs : Option (List DataRun)
deriving DecidableEq

/-- FileNameAttr: the transient decoded FILE_NAME attribute. -/
structure FileNameAttr where
  name : List Nat
  parent_reference : Nat
  namespace_code : Nat
  allocated_size : Nat
  real_size : Nat
deriving DecidableEq

/-- NtfsEntry: the produced output record. -/
structure NtfsEntry where
  mft_offset : Nat
  mft_record_number : Nat
  sequence_number : Nat
  hardlink_count : Nat
  is_in_use : Bool
  is_directory : Bool
  filename : List Nat
  parent_mft_record : Nat
  parent_sequence : Nat
  allocated_size : Nat
  real_size : Nat
  created : Option UtcInstant
  modified : Option UtcInstant
  mft_modified : Option UtcInstant
  accessed : Option UtcInstant
  file_attributes : Option FileAttributes
  owner_id : Option Nat
  security_id : Option Nat
  usn : Option Nat
  object_id : Option (List Nat)
  alternate_filenames : List AlternateFilename
  data_streams : List DataStream
  reparse_tag : Option Nat
  reparse_target : Option (List Nat)
  has_extended_attributes : Bool
deriving DecidableEq

/-- parse_attr_header: header of the attribute at the given offset; none
terminates the walk (end marker 0xFFFFFFFF, zero length, out of bounds).
Returns (type, length, non_resident, optional attribute name). -/
def parse_attr_header (buf : List Nat) (offset : Nat) :
    Option (Nat × Nat × Bool × Option (List Nat)) :=
  if offset + 16 > buf.length then none
  else
    let attr_type := readU32 buf offset
    if attr_type = 0xFFFFFFFF then none
    else
      let length := readU32 buf (offset + 4)
      if length = 0 ∨ offset + length > buf.length then none
      else
        let non_resident := buf.getD (offset + 8) 0 != 0
        let name_length := buf.getD (offset + 9) 0
        let name_offset := readU16 buf (offset + 10)
        let attr_name :=
          if name_length > 0 ∧ offset + name_offset + name_length * 2 ≤ buf.length then
            decodeUtf16 (bytesToU16s
              (sliceBytes buf (offset + name_offset) (offset + name_offset + name_length * 2)))
          else none
        some (attr_type, length, non_resident, attr_name)

/-- parse_filename: decode a FILE_NAME attribute; none on short input,
content overflow or invalid UTF-16. -/
def parse_filename (attr : List Nat) : Option FileNameAttr :=
  if attr.length < 66 then none
  else
    let content_offset := readU16 attr 20
    if content_offset + 66 > attr.length then none
    else
      let content := sliceBytes attr content_offset attr.length
      let parent_reference := readU64 content 0
      let allocated_size := readU64 content 40
      let real_size := readU64 content 48
      let namespace_code := content.getD 65 0
      let name_len := content.getD 64 0
      if 66 + name_len * 2 > content.length then none
      else
        match decodeUtf16 (bytesToU16s (sliceBytes content 66 (66 + name_len * 2))) with
        | none => none
        | some name => some ⟨name, parent_reference, namespace_code, allocated_size, real_size⟩

/-- parse_resident_data: the raw content bytes of a resident attribute. -/
def parse_resident_data (attr : List Nat) : Option (List Nat) :=
  if attr.length < 24 then none
  else
    let content_len := readU32 attr 16
    let content_offset := readU16 attr 20
    if content_offset + content_len > attr.length then none
    else some (sliceBytes attr content_offset (content_offset + content_len))

/-- The data-run decoding loop of parse_data_runs. The fuel argument
bounds the iteration count; each iteration advances the offset by at
least two, so any fuel of at least attr.length + 1 (the value all
callers pass) is never exhausted before the loop guard stops it. The
signed delta is the little-endian value sign-extended by the top bit of
its last byte, exactly as the or-loops of the source compute it; lcn
accumulates with wrapping i64 addition. -/
def parse_data_runs_loop (attr : List Nat) : Nat → Nat → Int → List DataRun
  | 0, _, _ => []
  | fuel + 1, offset, lcn =>
    if offset < attr.length then
      let header := attr.getD offset 0
      if header = 0 then []
      else
        let length_bytes := header % 16
        let offset_bytes := header / 16 % 16
        if length_bytes = 0 ∨ 8 < length_bytes ∨ 8 < offset_bytes then []
        else if attr.length < offset + 1 + length_bytes + offset_bytes then []
        else
          let cluster_count := leVal attr (offset + 1) length_bytes
          let raw := leVal attr (offset + 1 + length_bytes) offset_bytes
          let delta : Int :=
            if 0 < offset_bytes ∧
               attr.getD (offset + 1 + length_bytes + offset_bytes - 1) 0 &&& 0x80 ≠ 0 then
              (raw : Int) - (2 : Int) ^ (8 * offset_bytes)
            else (raw : Int)
          let lcn2 := wrapI64 (lcn + delta)
          ⟨lcn2, cluster_count⟩ ::
            parse_data_runs_loop attr fuel (offset + 1 + length_bytes + offset_bytes) lcn2
    else []

/-- parse_data_runs: locate the run array and decode it; an empty run
list is reported as none. -/
def parse_data_runs (attr : List Nat) : Option (List DataRun) :=
  if attr.length < 64 then none
  else
    let data_run_offset := readU16 attr 32
    if data_run_offset ≥ attr.length then none
    else
      let runs := parse_data_runs_loop attr (attr.length + 1) data_run_offset 0
      if runs = [] then none else some runs

/-- parse_data_attribute: a DATA attribute becomes a DataStream; the
resident branch copies content bytes (string form when valid UTF-8), the
non-resident branch reads sizes and decodes data runs. -/
def parse_data_attribute (attr : List Nat) (attr_name : Option (List Nat))
    (non_resident : Bool) : Option DataStream :=
  if non_resident then
    if attr.length < 64 then none
    else
      let real_size := readU64 attr 48
      let allocated_size := readU64 attr 56
      some ⟨attr_name, false, real_size, allocated_size, none, parse_data_runs attr⟩
  else
    match parse_resident_data attr with
    | none => none
    | some data => some ⟨attr_name, true, data.length, data.length, decodeUtf8 data, none⟩

/-- The content view of an attribute for the decoders that slice from
content_offset to the end (attr[content_offset..] in the source). -/
def siContent (attr : List Nat) : List Nat :=
  sliceBytes attr (readU16 attr 20) attr.length

/-- The tuple parse_standard_information yields on success. -/
structure SIInfo where
  created : UtcInstant
  modified : UtcInstant
  mft_modified : UtcInstant
  accessed : UtcInstant
  file_attrs : FileAttributes
  owner_id : Option Nat
  security_id : Option Nat
  usn : Option Nat
deriving DecidableEq

/-- parse_standard_information. The source reads attr[20..22] before any
bounds check, which panics (Except.error) whenever the header-declared
attribute length is below 22. All four FILETIMEs must convert; otherwise
the whole block is dropped (ok none). -/
def parse_standard_information (attr : List Nat) : Except Unit (Option SIInfo) :=
  if attr.length < 22 then .error ()
  else
    let content_offset := readU16 attr 20
    if content_offset + 48 > attr.length then .ok none
    else
      let c := siContent attr
      match filetime_to_utc (readU64 c 0) with
      | none => .ok none
      | some created =>
        match filetime_to_utc (readU64 c 8) with
        | none => .ok none
        | some modified =>
          match filetime_to_utc (readU64 c 16) with
          | none => .ok none
          | some mft_modified =>
            match filetime_to_utc (readU64 c 24) with
            | none => .ok none
            | some accessed =>
              let file_attrs := FileAttributes.from_flags (readU32 c 32)
              let owner_id := if c.length ≥ 56 then some (readU32 c 48) else none
              let security_id := if c.length ≥ 56 then some (readU32 c 52) else none
              let usn := if c.length ≥ 72 then some (readU64 c 64) else none
              .ok (some ⟨created, modified, mft_modified, accessed,
                         file_attrs, owner_id, security_id, usn⟩)

/-- Lower-case hex digit as an ASCII code. -/
def hexDigit (n : Nat) : Nat := if n < 10 then 48 + n else 87 + n

/-- Two lower-case hex digits of a byte as ASCII codes ({:02x}). -/
def hexByte (b : Nat) : List Nat := [hexDigit (b / 16 % 16), hexDigit (b % 16)]

/-- GUID formatting of parse_object_id: first three groups byte-swapped,
last two groups in on-disk order, ASCII codes with dashes (code 45). -/
def formatGuid (g : List Nat) : List Nat :=
  hexByte (g.getD 3 0) ++ hexByte (g.getD 2 0) ++ hexByte (g.getD 1 0) ++ hexByte (g.getD 0 0) ++
  [45] ++ hexByte (g.getD 5 0) ++ hexByte (g.getD 4 0) ++
  [45] ++ hexByte (g.getD 7 0) ++ hexByte (g.getD 6 0) ++
  [45] ++ hexByte (g.getD 8 0) ++ hexByte (g.getD 9 0) ++
  [45] ++ hexByte (g.getD 10 0) ++ hexByte (g.getD 11 0) ++ hexByte (g.getD 12 0) ++
  hexByte (g.getD 13 0) ++ hexByte (g.getD 14 0) ++ hexByte (g.getD 15 0)

/-- parse_object_id. Like parse_standard_information, the read of
attr[20..22] panics when the attribute slice is shorter than 22. -/
def parse_object_id (attr : List Nat) : Except Unit (Option (List Nat)) :=
  if attr.length < 22 then .error ()
  else
    let content_offset := readU16 attr 20
    if content_offset + 16 > attr.length then .ok none
    else .ok (some (formatGuid (sliceBytes attr content_offset (content_offset + 16))))

/-- parse_reparse_point: tag plus optional substitute-name target; the
target is decoded only for the symlink and junction tags. The read of
attr[20..22] panics when the attribute slice is shorter than 22. -/
def parse_reparse_point (attr : List Nat) :
    Except Unit (Option (Nat × Option (List Nat))) :=
  if attr.length < 22 then .error ()
  else
    let content_offset := readU16 attr 20
    if content_offset + 8 > attr.length then .ok none
    else
      let content := siContent attr
      let tag := readU32 content 0
      let target :=
        if tag = 0xA000000C ∨ tag = 0xA0000003 then
          if content.length ≥ 20 then
            let substitute_name_offset := readU16 content 8
            let substitute_name_length := readU16 content 10
            if 20 + substitute_name_offset + substitute_name_length ≤ content.length then
              decodeUtf16 (bytesToU16s (sliceBytes content
                (20 + substitute_name_offset)
                (20 + substitute_name_offset + substitute_name_length)))
            else none
          else none
        else none
      .ok (some (tag, target))

/-- The mutable accumulator state of the attribute walk inside
parse_ntfs_record. -/
structure ScanAcc where
  all_filenames : List FileNameAttr
  data_streams : List DataStream
  created : Option UtcInstant
  modified : Option UtcInstant
  mft_modified : Option UtcInstant
  accessed : Option UtcInstant
  file_attributes : Option FileAttributes
  owner_id : Option Nat
  security_id : Option Nat
  usn : Option Nat
  object_id : Option (List Nat)
  reparse_tag : Option Nat
  reparse_target : Option (List Nat)
  has_ea : Bool
deriving DecidableEq

/-- The initial accumulator of parse_ntfs_record. -/
def initAcc : ScanAcc :=
  ⟨[], [], none, none, none, none, none, none, none, none, none, none, none, false⟩

/-- One dispatch step of the attribute-walk loop body (the match on
attr_type inside parse_ntfs_record). -/
def stepAttr (acc : ScanAcc) (attr_type : Nat) (attr : List Nat)
    (attr_name : Option (List Nat)) (non_resident : Bool) : Except Unit ScanAcc :=
  if attr_type = 0x30 then
    match parse_filename attr with
    | some f => .ok { acc with all_filenames := acc.all_filenames ++ [f] }
    | none => .ok acc
  else if attr_type = 0x80 then
    match parse_data_attribute attr attr_name non_resident with
    | some s => .ok { acc with data_streams := acc.data_streams ++ [s] }
    | none => .ok acc
  else if attr_type = 0x10 then
    if acc.created = none then
      match parse_standard_information attr with
      | .error e => .error e
      | .ok none => .ok acc
      | .ok (some si) =>
        .ok { acc with
              created := some si.created, modified := some si.modified,
              mft_modified := some si.mft_modified, accessed := some si.accessed,
              file_attributes := some si.file_attrs, owner_id := si.owner_id,
              security_id := si.security_id, usn := si.usn }
    else .ok acc
  else if attr_type = 0x40 then
    if acc.object_id = none then
      match parse_object_id attr with
      | .error e => .error e
      | .ok oid => .ok { acc with object_id := oid }
    else .ok acc
  else if attr_type = 0xC0 then
    if acc.reparse_tag = none then
      match parse_reparse_point attr with
      | .error e => .error e
      | .ok none => .ok acc
      | .ok (some (tag, target)) =>
        .ok { acc with reparse_tag := some tag, reparse_target := target }
    else .ok acc
  else if attr_type = 0xD0 then
    .ok { acc with has_ea := true }
  else .ok acc

/-- The while-let attribute walk of parse_ntfs_record. The fuel bounds
the iteration count; each accepted header has length at least one and
stays inside the record, so fuel record.length + 1 (the value the caller
passes) is never exhausted before parse_attr_header stops the loop. -/
def walkAttrs (record : List Nat) : Nat → Nat → ScanAcc → Except Unit ScanAcc
  | 0, _, acc => .ok acc
  | fuel + 1, offset, acc =>
    match parse_attr_header record offset with
    | none => .ok acc
    | some (attr_type, len, non_resident, attr_name) =>
      match stepAttr acc attr_type (sliceBytes record offset (offset + len))
            attr_name non_resident with
      | .error e => .error e
      | .ok acc2 => walkAttrs record fuel (offset + len) acc2

/-- The header fields parse_ntfs_record reads before walking attributes. -/
structure RecHeader where
  mft_offset : Nat
  mft_record_number : Nat
  sequence_number : Nat
  hardlink_count : Nat
  is_in_use : Bool
  is_directory : Bool
deriving DecidableEq

/-- A junk FileNameAttr used only as the default of List.getD at indices
proved to be in bounds. -/
def fnDefault : FileNameAttr := ⟨[], 0, 0, 0, 0⟩

/-- Modelled from the spec wording of section 4.4 (canonical-filename
selection): the index of the first FILE_NAME with namespace 1 or 3, else
the first with namespace 0, else index 0 (first in on-disk order). Used
to compare the assembly code against the specified selection rule. -/
def specMainIdx (fns : List FileNameAttr) : Nat :=
  match fns.findIdx? (fun f => f.namespace_code == 1 || f.namespace_code == 3) with
  | some i => i
  | none =>
    match fns.findIdx? (fun f => f.namespace_code == 0) with
    | some i => i
    | none => 0

/-- Steps 6..8 of parse_ntfs_record: drop the record when no FILE_NAME
was collected, select the main filename (prefer Win32 or Win32-and-DOS,
then POSIX, else the first), split the parent reference into the low 48
bits and the high 16 bits, and project the remaining names to
alternate_filenames. -/
def assembleEntry (hdr : RecHeader) (acc : ScanAcc) : Option NtfsEntry :=
  if acc.all_filenames = [] then none
  else
    let main_idx :=
      ((acc.all_filenames.findIdx? (fun f => f.namespace_code == 1 || f.namespace_code == 3)).orElse
        (fun _ => acc.all_filenames.findIdx? (fun f => f.namespace_code == 0))).getD 0
    let main := acc.all_filenames.getD main_idx fnDefault
    let rest := acc.all_filenames.eraseIdx main_idx
    some
      { mft_offset := hdr.mft_offset
        mft_record_number := hdr.mft_record_number
        sequence_number := hdr.sequence_number
        hardlink_count := hdr.hardlink_count
        is_in_use := hdr.is_in_use
        is_directory := hdr.is_directory
        filename := main.name
        parent_mft_record := main.parent_reference &&& 0xFFFFFFFFFFFF
        parent_sequence := main.parent_reference >>> 48 &&& 0xFFFF
        allocated_size := main.allocated_size
        real_size := main.real_size
        created := acc.created
        modified := acc.modified
        mft_modified := acc.mft_modified
        accessed := acc.accessed
        file_attributes := acc.file_attributes
        owner_id := acc.owner_id
        security_id := acc.security_id
        usn := acc.usn
        object_id := acc.object_id
        alternate_filenames := rest.map (fun f => ⟨f.name, f.namespace_code⟩)
        data_streams := acc.data_streams
        reparse_tag := acc.reparse_tag
        reparse_target := acc.reparse_target
        has_extended_attributes := acc.has_ea }

/-- parse_ntfs_record: signature gate (FILE, panicking when even the four
magic bytes are out of reach), record bounds, header reads (panicking
below 48 bytes), the attribute walk, and assembly. -/
def parse_ntfs_record (buf : List Nat) (idx record_size : Nat) :
    Except Unit (Option NtfsEntry) :=
  if idx + 4 > buf.length then .error ()
  else if sliceBytes buf idx (idx + 4) ≠ [70, 73, 76, 69] then .ok none
  else if idx + record_size > buf.length then .ok none
  else
    let record := sliceBytes buf idx (idx + record_size)
    if record.length < 48 then .error ()
    else
      let first_attr_offset := readU16 record 20
      let flags := readU16 record 22
      let hdr : RecHeader :=
        ⟨idx, readU32 record 44, readU16 record 16, readU16 record 18,
         flags &&& 0x01 != 0, flags &&& 0x02 != 0⟩
      match walkAttrs record (record.length + 1) first_attr_offset initAcc with
      | .error e => .error e
      | .ok acc => .ok (assembleEntry hdr acc)

/-- The filter_map over candidate offsets driven to completion by the
caller: per-offset none results are elided, the first panic aborts. -/
def filterMapE (f : Nat → Except Unit (Option NtfsEntry)) :
    List Nat → Except Unit (List NtfsEntry)
  | [] => .ok []
  | i :: rest =>
    match f i with
    | .error e => .error e
    | .ok none => filterMapE f rest
    | .ok (some x) => (filterMapE f rest).map (x :: ·)

/-- scan_ntfs_image: candidate offsets 0, 8, 16, strictly below
len - 4 (saturating), each tried as a 1024-byte record. -/
def scan_ntfs_image (buf : List Nat) : Except Unit (List NtfsEntry) :=
  filterMapE (fun i => parse_ntfs_record buf i 1024)
    ((List.range ((buf.length - 4 + 7) / 8)).map (fun k => 8 * k))

/-- Companion of parse_data_runs_loop with identical control flow, giving
for each emitted run the pair (offset_bytes, signed delta): the encoded
width of the offset field and the sign-extended little-endian delta the
run contributes (0 whenever offset_bytes is 0, the sparse encoding). -/
def runMeta (attr : List Nat) : Nat → Nat → List (Nat × Int)
  | 0, _ => []
  | fuel + 1, offset =>
    if offset < attr.length then
      let header := attr.getD offset 0
      if header = 0 then []
      else
        let length_bytes := header % 16
        let offset_bytes := header / 16 % 16
        if length_bytes = 0 ∨ 8 < length_bytes ∨ 8 < offset_bytes then []
        else if attr.length < offset + 1 + length_bytes + offset_bytes then []
        else
          let raw := leVal attr (offset + 1 + length_bytes) offset_bytes
          let delta : Int :=
            if 0 < offset_bytes ∧
               attr.getD (offset + 1 + length_bytes + offset_bytes - 1) 0 &&& 0x80 ≠ 0 then
              (raw : Int) - (2 : Int) ^ (8 * offset_bytes)
            else (raw : Int)
          (offset_bytes, delta) ::
            runMeta attr fuel (offset + 1 + length_bytes + offset_bytes)
    else []

/-- A run of n zero bytes. -/
def zeros (n : Nat) : List Nat := List.replicate n 0

/-- Pad a byte prefix with zero bytes to a full 1024-byte record image. -/
def pad1024 (l : List Nat) : List Nat := l ++ List.replicate (1024 - l.length) 0

/-- Little-endian bytes of FILETIME 116444736000000000 (the Unix epoch,
1970-01-01T00:00:00Z, as 100-ns ticks since 1601). -/
def epochFt : List Nat := [0, 128, 62, 213, 222, 177, 157, 1]

/-- A 1024-byte image holding one FILE record whose first attribute is a
STANDARD_INFORMATION of header-declared length 20 (below the 22 bytes
the decoder indexes unconditionally): record header with
first_attr_offset 56, attribute type 0x10, length 20 at offset 56. -/
def exC1img : List Nat :=
  pad1024 ([70, 73, 76, 69] ++ zeros 16 ++ [56, 0] ++ zeros 34 ++
    [16, 0, 0, 0, 20, 0, 0, 0] ++ zeros 12)

/-- A 1024-byte image holding one FILE record with two
STANDARD_INFORMATION attributes, the first with all four FILETIMEs zero
(decode failure), the second fully valid (epoch timestamps, readonly
flag), followed by one FILE_NAME (name "a", namespace 1) and the end
marker. -/
def exC2img : List Nat :=
  pad1024 ([70, 73, 76, 69] ++ zeros 16 ++ [56, 0] ++ zeros 34 ++
    [16, 0, 0, 0, 72, 0, 0, 0] ++ zeros 12 ++ [24, 0] ++ zeros 2 ++ zeros 48 ++
    [16, 0, 0, 0, 72, 0, 0, 0] ++ zeros 12 ++ [24, 0] ++ zeros 2 ++
      epochFt ++ epochFt ++ epochFt ++ epochFt ++ [1, 0, 0, 0] ++ zeros 12 ++
    [48, 0, 0, 0, 92, 0, 0, 0] ++ zeros 12 ++ [24, 0] ++ zeros 2 ++
      zeros 64 ++ [1, 1] ++ [97, 0] ++
    [255, 255, 255, 255])

/-- A 1024-byte image holding one FILE record whose single FILE_NAME has
stored name_length 0 (and namespace 2), so it decodes to an empty name. -/
def exC5img : List Nat :=
  pad1024 ([70, 73, 76, 69] ++ zeros 16 ++ [56, 0] ++ zeros 34 ++
    [48, 0, 0, 0, 90, 0, 0, 0] ++ zeros 12 ++ [24, 0] ++ zeros 2 ++
      zeros 64 ++ [0, 2] ++
    [255, 255, 255, 255])

/-- A 1024-byte image holding one FILE record with a FILE_NAME (name
"a", namespace 1) and a REPARSE_POINT with the symlink tag 0xA000000C
and substitute name "b". -/
def exC9img : List Nat :=
  pad1024 ([70, 73, 76, 69] ++ zeros 16 ++ [56, 0] ++ zeros 34 ++
    [48, 0, 0, 0, 92, 0, 0, 0] ++ zeros 12 ++ [24, 0] ++ zeros 2 ++
      zeros 64 ++ [1, 1] ++ [97, 0] ++
    [192, 0, 0, 0, 46, 0, 0, 0] ++ zeros 12 ++ [24, 0] ++ zeros 2 ++
      [12, 0, 0, 160] ++ zeros 4 ++ [0, 0] ++ [2, 0] ++ zeros 8 ++ [98, 0] ++
    [255, 255, 255, 255])

/-- The one entry the scanner yields on exC9img. -/
def exC9entry : NtfsEntry :=
  { mft_offset := 0, mft_record_number := 0, sequence_number := 0, hardlink_count := 0,
    is_in_use := false, is_directory := false, filename := [97],
    parent_mft_record := 0, parent_sequence := 0, allocated_size := 0, real_size := 0,
    created := none, modified := none, mft_modified := none, accessed := none,
    file_attributes := none, owner_id := none, security_id := none, usn := none,
    object_id := none, alternate_filenames := [], data_streams := [],
    reparse_tag := some 2684354572, reparse_target := some [98],
    has_extended_attributes := false }

/-- A non-resident DATA attribute slice whose run array (at offset 64)
encodes a sparse run (header 0x01: count 16, no offset bytes) and then a
normal run (header 0x11: count 32, delta 64), then the terminator. -/
def exC4attr : List Nat := zeros 32 ++ [64, 0] ++ zeros 30 ++ [1, 16, 17, 32, 64, 0]

/-- A FILE_NAME attribute slice whose namespace byte (content offset 65)
is 4, outside the documented set, with a one-character name "a". -/
def exC8attr : List Nat := zeros 20 ++ [24, 0] ++ zeros 2 ++ zeros 64 ++ [1, 4] ++ [97, 0]

/-- A STANDARD_INFORMATION attribute slice with 48 content bytes, all
four FILETIMEs zero. -/
def exC6attr : List Nat := zeros 20 ++ [24, 0] ++ zeros 2 ++ zeros 48

/-- A resident DATA attribute slice carrying the five bytes "hello". -/
def exC10attr : List Nat :=
  zeros 16 ++ [5, 0, 0, 0] ++ [24, 0] ++ zeros 2 ++ [104, 101, 108, 108, 111]

/-- The DataStream decoded from exC10attr. -/
def exC10ds : DataStream := ⟨none, true, 5, 5, some [104, 101, 108, 108, 111], none⟩

/-- A record consisting of a valid STANDARD_INFORMATION attribute (epoch
timestamps) followed by an OBJECT_ID attribute and the end marker, used
to exhibit that an already-set block survives a later walk. -/
def exC2rec : List Nat :=
  [16, 0, 0, 0, 72, 0, 0, 0] ++ zeros 12 ++ [24, 0] ++ zeros 2 ++
    epochFt ++ epochFt ++ epochFt ++ epochFt ++ [1, 0, 0, 0] ++ zeros 12 ++
  [64, 0, 0, 0, 40, 0, 0, 0] ++ zeros 12 ++ [24, 0] ++ zeros 2 ++ zeros 16 ++
  [255, 255, 255, 255]

/-- An accumulator whose STANDARD_INFORMATION block is already set (and
differs from what exC2rec's attribute would produce). -/
def exC2accIn : ScanAcc :=
  { initAcc with
    created := some ⟨7, 0⟩, modified := some ⟨8, 0⟩,
    mft_modified := some ⟨9, 0⟩, accessed := some ⟨10, 0⟩,
    file_attributes := some (FileAttributes.from_flags 2),
    owner_id := some 3, security_id := some 4, usn := some 5 }

/-- The accumulator after walking exC2rec from exC2accIn: the
STANDARD_INFORMATION block is untouched, the OBJECT_ID is filled with
the formatted all-zero GUID. -/
def exC2accOut : ScanAcc :=
  { exC2accIn with object_id := some (formatGuid (zeros 16)) }

/-- A header fixture for assembly-level witnesses. -/
def exC3hdr : RecHeader := ⟨0, 0, 0, 0, false, false⟩

/-- An accumulator with two collected FILE_NAMEs: a DOS name first, a
Win32 name second (the Win32 one must be selected). -/
def exC3acc : ScanAcc :=
  { initAcc with all_filenames := [⟨[66], 0, 2, 0, 0⟩, ⟨[97], 5, 1, 7, 9⟩] }

/-- The entry assembled from exC3acc. -/
def exC3entry : NtfsEntry :=
  { mft_offset := 0, mft_record_number := 0, sequence_number := 0, hardlink_count := 0,
    is_in_use := false, is_directory := false, filename := [97],
    parent_mft_record := 5, parent_sequence := 0, allocated_size := 7, real_size := 9,
    created := none, modified := none, mft_modified := none, accessed := none,
    file_attributes := none, owner_id := none, security_id := none, usn := none,
    object_id := none, alternate_filenames := [⟨[66], 2⟩], data_streams := [],
    reparse_tag := none, reparse_target := none, has_extended_attributes := false }

/-- A 1024-byte image holding one FILE record with two FILE_NAME
attributes: first namespace 2 (DOS) name "B", then namespace 1 (Win32)
name "a". -/
def exC5Wimg : List Nat :=
  pad1024 ([70, 73, 76, 69] ++ zeros 16 ++ [56, 0] ++ zeros 34 ++
    [48, 0, 0, 0, 92, 0, 0, 0] ++ zeros 12 ++ [24, 0] ++ zeros 2 ++
      zeros 64 ++ [1, 2] ++ [66, 0] ++
    [48, 0, 0, 0, 92, 0, 0, 0] ++ zeros 12 ++ [24, 0] ++ zeros 2 ++
      zeros 64 ++ [1, 1] ++ [97, 0] ++
    [255, 255, 255, 255])

/-- The one entry the scanner yields on exC5Wimg. -/
def exC5Wentry : NtfsEntry :=
  { mft_offset := 0, mft_record_number := 0, sequence_number := 0, hardlink_count := 0,
    is_in_use := false, is_directory := false, filename := [97],
    parent_mft_record := 0, parent_sequence := 0, allocated_size := 0, real_size := 0,
    created := none, modified := none, mft_modified := none, accessed := none,
    file_attributes := none, owner_id := none, security_id := none, usn := none,
    object_id := none, alternate_filenames := [⟨[66], 2⟩], data_streams := [],
    reparse_tag := none, reparse_target := none, has_extended_attributes := false }

set_option maxRecDepth 400000

/-- Elements of sliceBytes read through the underlying buffer. -/
theorem sliceBytes_getD (b : List Nat) (lo hi i : Nat) (h1 : lo + i < hi) :
    (sliceBytes b lo hi).getD i 0 = b.getD (lo + i) 0 := by
  unfold sliceBytes
  rw [List.getD_eq_getElem?_getD, List.getD_eq_getElem?_getD]
  rw [List.getElem?_take, List.getElem?_drop]
  rw [if_pos (show i < hi - lo by omega)]

/-- Claim C1: the scan is not total: on exC1img the STANDARD_INFORMATION
decoder indexes bytes 20..22 of a 20-byte attribute slice and panics, so
the whole scan fails instead of absorbing the failure. -/
theorem c1_scan_panics : scan_ntfs_image exC1img = Except.error () := rfl

/-- Claim C7 counterexample: at ft = 2^63 the code reinterprets the u64
as a negative i64 before dividing, yielding the instant with seconds
-933981677285, while the claimed formula ft / 10^7 - 11644473600 gives
910692730085 (a representable instant), so the converted value differs
from the claim. -/
theorem c7_counterexample :
    filetime_to_utc 9223372036854775808 = some ⟨-933981677285, 477580800⟩ ∧
    (9223372036854775808 : Nat) / 10000000 - 11644473600 = 910692730085 ∧
    filetime_to_utc 9223372036854775808 ≠ some ⟨910692730085, 477580800⟩ := by
  refine ⟨by decide, by decide, by decide⟩

/-- Claim C7 (amended): for 0 < ft < 2^63 the conversion yields the
instant with Unix seconds ft / 10^7 - 11644473600 and nanoseconds
(ft mod 10^7) * 100 when that instant is representable, and none when it
is out of range; ft = 0 yields none; for ft at or above 2^63 the u64 is
first reinterpreted as a signed 64-bit value. -/
theorem c7_filetime_conversion (ft : Nat) (h0 : 0 < ft)
    (h1 : ft < 9223372036854775808) :
    filetime_to_utc ft =
      if -8334632851200 ≤ (ft : Int) / 10000000 - 11644473600 ∧
         (ft : Int) / 10000000 - 11644473600 ≤ 8210298412799 then
        some ⟨(ft : Int) / 10000000 - 11644473600, ft % 10000000 * 100⟩
      else none := by
  have hne : ft ≠ 0 := by omega
  have hdiv : Int.tdiv (i64ofU64 ft) 10000000 = (ft : Int) / 10000000 := by
    unfold i64ofU64
    rw [if_pos h1]
    rfl
  have hn : ft % 10000000 * 100 < 2000000000 := by
    have := Nat.mod_lt ft (show 0 < 10000000 by norm_num)
    omega
  by_cases hr : -8334632851200 ≤ (ft : Int) / 10000000 - 11644473600 ∧
      (ft : Int) / 10000000 - 11644473600 ≤ 8210298412799
  · simp only [filetime_to_utc, if_neg hne, timestampOpt, hdiv, if_pos hr,
      if_pos (And.intro hr.1 (And.intro hr.2 hn))]
  · simp only [filetime_to_utc, if_neg hne, timestampOpt, hdiv, if_neg hr]
    rw [if_neg]
    tauto

/-- Claim C7 witness: the epoch FILETIME converts to the Unix epoch. -/
theorem c7_witness :
    filetime_to_utc 116444736000000000 =
      some ⟨(116444736000000000 : Int) / 10000000 - 11644473600,
            116444736000000000 % 10000000 * 100⟩ := by
  have h := c7_filetime_conversion 116444736000000000 (by decide) (by decide)
  rw [h, if_pos (by decide)]
  decide

/-- Claim C8 counterexample: parse_filename accepts a FILE_NAME whose
namespace byte is 4, outside the documented set {0,1,2,3}. -/
theorem c8_counterexample : parse_filename exC8attr = some ⟨[97], 0, 4, 0, 0⟩ := rfl

/-- Claim C8 (amended): the decoder performs no namespace validation:
whenever a FILE_NAME decodes, its namespace field is exactly the raw
byte at content offset 65 of the attribute. -/
theorem c8_namespace_raw_byte (attr : List Nat) (f : FileNameAttr)
    (h : parse_filename attr = some f) :
    f.namespace_code = attr.getD (readU16 attr 20 + 65) 0 := by
  simp only [parse_filename] at h
  split at h
  · exact absurd h (by simp)
  · split at h
    · exact absurd h (by simp)
    · split at h
      · exact absurd h (by simp)
      · split at h
        · exact absurd h (by simp)
        · rename_i hlen hco hfit name hname
          injection h with h
          subst h
          show (sliceBytes attr (readU16 attr 20) attr.length).getD 65 0 = _
          exact sliceBytes_getD attr (readU16 attr 20) attr.length 65 (by omega)

/-- Claim C8 witness: applying the amended theorem at exC8attr. -/
theorem c8_witness : (⟨[97], 0, 4, 0, 0⟩ : FileNameAttr).namespace_code =
    exC8attr.getD (readU16 exC8attr 20 + 65) 0 :=
  c8_namespace_raw_byte exC8attr ⟨[97], 0, 4, 0, 0⟩ (by rfl)

/-- parse_data_runs never reports an empty run list. -/
theorem parse_data_runs_ne_some_nil (attr : List Nat) :
    parse_data_runs attr ≠ some [] := by
  simp only [parse_data_runs]
  split
  · simp
  · split
    · simp
    · split
      · simp
      · rename_i hne
        intro hc
        simp only [Option.some.injEq] at hc
        exact hne hc

/-- Claim C10: in every decoded DataStream the resident and non-resident
representations are mutually exclusive: a resident stream has no data
runs, equal size and allocated_size (both the content length), and
resident_data exactly the UTF-8 decoding of the content; a non-resident
stream has no resident_data; and data_runs is never an empty list. -/
theorem c10_data_stream_exclusive (attr : List Nat) (nm : Option (List Nat))
    (nr : Bool) (ds : DataStream) (h : parse_data_attribute attr nm nr = some ds) :
    (ds.resident = true →
      ds.data_runs = none ∧ ds.size = ds.allocated_size ∧
      (parse_resident_data attr).map List.length = some ds.size ∧
      ds.resident_data = (parse_resident_data attr).bind decodeUtf8) ∧
    (ds.resident = false → ds.resident_data = none) ∧
    ds.data_runs ≠ some [] := by
  unfold parse_data_attribute at h
  split at h
  · split at h
    · exact absurd h (by simp)
    · injection h with h
      subst h
      refine ⟨fun hres => by simp at hres, fun _ => rfl, parse_data_runs_ne_some_nil attr⟩
  · split at h
    · exact absurd h (by simp)
    · rename_i data hdata
      injection h with h
      subst h
      exact ⟨fun _ => ⟨rfl, rfl, by rw [hdata]; rfl, by rw [hdata]; rfl⟩,
             fun hres => by simp at hres, by simp⟩

/-- Claim C10 witness: applying the theorem at the resident attribute
exC10attr with its decoded stream. -/
theorem c10_witness :
    exC10ds.data_runs = none ∧ exC10ds.size = exC10ds.allocated_size ∧
    (parse_resident_data exC10attr).map List.length = some exC10ds.size ∧
    exC10ds.resident_data = (parse_resident_data exC10attr).bind decodeUtf8 :=
  (c10_data_stream_exclusive exC10attr none false exC10ds (by rfl)).1 (by rfl)

/-- Masking with the low 48 bits equals reduction mod 2^48. -/
theorem mask48_eq_mod (x : Nat) : x &&& 281474976710655 = x % 281474976710656 := by
  have h := Nat.and_pow_two_sub_one_eq_mod x 48
  norm_num at h
  exact h

/-- Shifting right 48 then masking 16 bits equals division and mod. -/
theorem shift48_mask16_eq (x : Nat) :
    x >>> 48 &&& 65535 = x / 281474976710656 % 65536 := by
  have h1 := Nat.and_pow_two_sub_one_eq_mod (x >>> 48) 16
  have h2 := Nat.shiftRight_eq_div_pow x 48
  norm_num at h1 h2
  rw [h1, h2]

/-- The main-filename index the assembly code computes equals the
spec-modelled selection index. -/
theorem codeMainIdx_eq (fns : List FileNameAttr) :
    ((fns.findIdx? (fun f => f.namespace_code == 1 || f.namespace_code == 3)).orElse
      (fun _ => fns.findIdx? (fun f => f.namespace_code == 0))).getD 0 = specMainIdx fns := by
  unfold specMainIdx
  cases h1 : fns.findIdx? (fun f => f.namespace_code == 1 || f.namespace_code == 3) <;>
    cases h2 : fns.findIdx? (fun f => f.namespace_code == 0) <;>
      simp [Option.orElse, h1, h2]

/-- The selection index is in bounds for a non-empty filename list. -/
theorem specMainIdx_lt (fns : List FileNameAttr) (h : fns ≠ []) :
    specMainIdx fns < fns.length := by
  unfold specMainIdx
  cases h1 : fns.findIdx? (fun f => f.namespace_code == 1 || f.namespace_code == 3) with
  | some i => exact (List.findIdx?_eq_some_iff_findIdx_eq.mp h1).1
  | none =>
    cases h2 : fns.findIdx? (fun f => f.namespace_code == 0) with
    | some i => exact (List.findIdx?_eq_some_iff_findIdx_eq.mp h2).1
    | none => exact List.length_pos.mpr h

/-- Dissection of assembleEntry: it succeeds exactly on a non-empty
filename list and every field of the produced entry is determined by the
header, the accumulator, and the selection index. -/
theorem assemble_spec (hdr : RecHeader) (acc : ScanAcc) (e : NtfsEntry)
    (h : assembleEntry hdr acc = some e) :
    acc.all_filenames ≠ [] ∧
    e = { mft_offset := hdr.mft_offset, mft_record_number := hdr.mft_record_number,
          sequence_number := hdr.sequence_number, hardlink_count := hdr.hardlink_count,
          is_in_use := hdr.is_in_use, is_directory := hdr.is_directory,
          filename := (acc.all_filenames.getD (specMainIdx acc.all_filenames) fnDefault).name,
          parent_mft_record :=
            (acc.all_filenames.getD (specMainIdx acc.all_filenames) fnDefault).parent_reference
              &&& 0xFFFFFFFFFFFF,
          parent_sequence :=
            (acc.all_filenames.getD (specMainIdx acc.all_filenames) fnDefault).parent_reference
              >>> 48 &&& 0xFFFF,
          allocated_size :=
            (acc.all_filenames.getD (specMainIdx acc.all_filenames) fnDefault).allocated_size,
          real_size :=
            (acc.all_filenames.getD (specMainIdx acc.all_filenames) fnDefault).real_size,
          created := acc.created, modified := acc.modified,
          mft_modified := acc.mft_modified, accessed := acc.accessed,
          file_attributes := acc.file_attributes, owner_id := acc.owner_id,
          security_id := acc.security_id, usn := acc.usn, object_id := acc.object_id,
          alternate_filenames :=
            (acc.all_filenames.eraseIdx (specMainIdx acc.all_filenames)).map
              (fun f => ⟨f.name, f.namespace_code⟩),
          data_streams := acc.data_streams, reparse_tag := acc.reparse_tag,
          reparse_target := acc.reparse_target,
          has_extended_attributes := acc.has_ea } := by
  simp only [assembleEntry] at h
  split at h
  · exact absurd h (by simp)
  · rename_i hne
    rw [codeMainIdx_eq] at h
    injection h with h
    exact ⟨hne, h.symm⟩

/-- Claim C3: whenever assembly produces an entry, the canonical
filename is the FILE_NAME at the spec-modelled selection index (first
namespace 1 or 3, else first namespace 0, else the first), and it
supplies the filename, the low 48 bits of the parent reference, the high
16 bits as parent sequence, and both sizes, while the remaining
FILE_NAMEs in their original relative order become alternate_filenames
carrying only name and namespace. -/
theorem c3_canonical_selection (hdr : RecHeader) (acc : ScanAcc) (e : NtfsEntry)
    (h : assembleEntry hdr acc = some e) :
    acc.all_filenames ≠ [] ∧
    specMainIdx acc.all_filenames < acc.all_filenames.length ∧
    e.filename = (acc.all_filenames.getD (specMainIdx acc.all_filenames) fnDefault).name ∧
    e.parent_mft_record =
      (acc.all_filenames.getD (specMainIdx acc.all_filenames) fnDefault).parent_reference
        % 281474976710656 ∧
    e.parent_sequence =
      (acc.all_filenames.getD (specMainIdx acc.all_filenames) fnDefault).parent_reference
        / 281474976710656 % 65536 ∧
    e.allocated_size =
      (acc.all_filenames.getD (specMainIdx acc.all_filenames) fnDefault).allocated_size ∧
    e.real_size =
      (acc.all_filenames.getD (specMainIdx acc.all_filenames) fnDefault).real_size ∧
    e.alternate_filenames =
      (acc.all_filenames.eraseIdx (specMainIdx acc.all_filenames)).map
        (fun f => ⟨f.name, f.namespace_code⟩) := by
  obtain ⟨hne, he⟩ := assemble_spec hdr acc e h
  subst he
  refine ⟨hne, specMainIdx_lt _ hne, rfl, ?_, ?_, rfl, rfl, rfl⟩
  · exact mask48_eq_mod _
  · exact shift48_mask16_eq _

/-- Claim C3 witness: the selection applied to exC3acc picks the Win32
name over the preceding DOS name. -/
theorem c3_witness :
    exC3acc.all_filenames ≠ [] ∧
    specMainIdx exC3acc.all_filenames < exC3acc.all_filenames.length ∧
    exC3entry.filename =
      (exC3acc.all_filenames.getD (specMainIdx exC3acc.all_filenames) fnDefault).name ∧
    exC3entry.parent_mft_record =
      (exC3acc.all_filenames.getD (specMainIdx exC3acc.all_filenames) fnDefault).parent_reference
        % 281474976710656 ∧
    exC3entry.parent_sequence =
      (exC3acc.all_filenames.getD (specMainIdx exC3acc.all_filenames) fnDefault).parent_reference
        / 281474976710656 % 65536 ∧
    exC3entry.allocated_size =
      (exC3acc.all_filenames.getD (specMainIdx exC3acc.all_filenames) fnDefault).allocated_size ∧
    exC3entry.real_size =
      (exC3acc.all_filenames.getD (specMainIdx exC3acc.all_filenames) fnDefault).real_size ∧
    exC3entry.alternate_filenames =
      (exC3acc.all_filenames.eraseIdx (specMainIdx exC3acc.all_filenames)).map
        (fun f => ⟨f.name, f.namespace_code⟩) :=
  c3_canonical_selection exC3hdr exC3acc exC3entry (by rfl)

/-- Dissection of parse_ntfs_record on success: the entry comes from an
attribute walk over the record slice followed by assembly with the
header fields read from it. -/
theorem parse_record_ok_some (buf : List Nat) (idx rs : Nat) (e : NtfsEntry)
    (h : parse_ntfs_record buf idx rs = Except.ok (some e)) :
    ∃ acc, walkAttrs (sliceBytes buf idx (idx + rs))
        ((sliceBytes buf idx (idx + rs)).length + 1)
        (readU16 (sliceBytes buf idx (idx + rs)) 20) initAcc = Except.ok acc ∧
      assembleEntry
        ⟨idx, readU32 (sliceBytes buf idx (idx + rs)) 44,
         readU16 (sliceBytes buf idx (idx + rs)) 16,
         readU16 (sliceBytes buf idx (idx + rs)) 18,
         readU16 (sliceBytes buf idx (idx + rs)) 22 &&& 0x01 != 0,
         readU16 (sliceBytes buf idx (idx + rs)) 22 &&& 0x02 != 0⟩ acc = some e := by
  simp only [parse_ntfs_record] at h
  split at h
  · exact absurd h (by simp)
  · split at h
    · exact absurd h (by simp)
    · split at h
      · exact absurd h (by simp)
      · split at h
        · exact absurd h (by simp)
        · split at h
          · exact absurd h (by simp)
          · rename_i acc hwalk
            injection h with h
            exact ⟨acc, hwalk, h⟩

/-- Claim C5 counterexample: on exC5img (one FILE_NAME with stored
name_length 0) the scanner yields exactly one entry whose filename is
the empty string. -/
theorem c5_counterexample :
    (scan_ntfs_image exC5img).map (fun es => es.map (fun e => e.filename)) =
      (Except.ok [[]] : Except Unit (List (List Nat))) := rfl

/-- Claim C5 (amended): for every entry parse_ntfs_record produces, the
number of alternate filenames plus one equals the number of FILE_NAME
attributes the walk successfully decoded and collected (not the number
present in the record), and the filename is the (possibly empty) name of
the collected FILE_NAME at the selection index. -/
theorem c5_alternate_count (buf : List Nat) (idx rs : Nat) (e : NtfsEntry)
    (h : parse_ntfs_record buf idx rs = Except.ok (some e)) :
    ∃ acc, walkAttrs (sliceBytes buf idx (idx + rs))
        ((sliceBytes buf idx (idx + rs)).length + 1)
        (readU16 (sliceBytes buf idx (idx + rs)) 20) initAcc = Except.ok acc ∧
      e.alternate_filenames.length + 1 = acc.all_filenames.length ∧
      e.filename = (acc.all_filenames.getD (specMainIdx acc.all_filenames) fnDefault).name := by
  obtain ⟨acc, hwalk, hasm⟩ := parse_record_ok_some buf idx rs e h
  obtain ⟨hne, he⟩ := assemble_spec _ acc e hasm
  refine ⟨acc, hwalk, ?_, by rw [he]⟩
  rw [he]
  show ((acc.all_filenames.eraseIdx (specMainIdx acc.all_filenames)).map
    (fun f => (⟨f.name, f.namespace_code⟩ : AlternateFilename))).length + 1 = _
  rw [List.length_map, List.length_eraseIdx_add_one (specMainIdx_lt _ hne)]

/-- Claim C5 witness: on exC5Wimg (two FILE_NAMEs) the yielded entry has
one alternate filename and filename "a". -/
theorem c5_witness :
    ∃ acc, walkAttrs (sliceBytes exC5Wimg 0 (0 + 1024))
        ((sliceBytes exC5Wimg 0 (0 + 1024)).length + 1)
        (readU16 (sliceBytes exC5Wimg 0 (0 + 1024)) 20) initAcc = Except.ok acc ∧
      exC5Wentry.alternate_filenames.length + 1 = acc.all_filenames.length ∧
      exC5Wentry.filename =
        (acc.all_filenames.getD (specMainIdx acc.all_filenames) fnDefault).name :=
  c5_alternate_count exC5Wimg 0 1024 exC5Wentry (by rfl)

/-- Claim C6: the STANDARD_INFORMATION decoder is all-or-nothing. For an
attribute it can process (length at least 22, content window of 48 bytes
in bounds): if any of the four FILETIMEs is zero or unrepresentable the
whole block is discarded (ok none, so nothing from this attribute
reaches the entry); if all four convert, the decoder yields exactly the
four timestamps together with the decoded attribute flags and the
length-gated owner, security and usn fields. -/
theorem c6_standard_information_all_or_nothing (attr : List Nat)
    (h1 : 22 ≤ attr.length) (h2 : readU16 attr 20 + 48 ≤ attr.length) :
    ((filetime_to_utc (readU64 (siContent attr) 0) = none ∨
      filetime_to_utc (readU64 (siContent attr) 8) = none ∨
      filetime_to_utc (readU64 (siContent attr) 16) = none ∨
      filetime_to_utc (readU64 (siContent attr) 24) = none) →
        parse_standard_information attr = Except.ok none) ∧
    (∀ t0 t1 t2 t3,
      filetime_to_utc (readU64 (siContent attr) 0) = some t0 →
      filetime_to_utc (readU64 (siContent attr) 8) = some t1 →
      filetime_to_utc (readU64 (siContent attr) 16) = some t2 →
      filetime_to_utc (readU64 (siContent attr) 24) = some t3 →
        parse_standard_information attr = Except.ok (some
          ⟨t0, t1, t2, t3, FileAttributes.from_flags (readU32 (siContent attr) 32),
           if (siContent attr).length ≥ 56 then some (readU32 (siContent attr) 48) else none,
           if (siContent attr).length ≥ 56 then some (readU32 (siContent attr) 52) else none,
           if (siContent attr).length ≥ 72 then some (readU64 (siContent attr) 64) else none⟩)) := by
  constructor
  · intro hnone
    simp only [parse_standard_information, if_neg (by omega : ¬attr.length < 22),
      if_neg (by omega : ¬readU16 attr 20 + 48 > attr.length)]
    rcases hnone with h | h | h | h <;> rw [h] <;>
      cases filetime_to_utc (readU64 (siContent attr) 0) <;>
      cases filetime_to_utc (readU64 (siContent attr) 8) <;>
      cases filetime_to_utc (readU64 (siContent attr) 16) <;>
      cases filetime_to_utc (readU64 (siContent attr) 24) <;> rfl
  · intro t0 t1 t2 t3 ht0 ht1 ht2 ht3
    simp only [parse_standard_information, if_neg (by omega : ¬attr.length < 22),
      if_neg (by omega : ¬readU16 attr 20 + 48 > attr.length), ht0, ht1, ht2, ht3]

/-- Claim C6 witness: the all-zero-FILETIME attribute exC6attr is
discarded as a whole. -/
theorem c6_witness : parse_standard_information exC6attr = Except.ok none :=
  (c6_standard_information_all_or_nothing exC6attr (by decide) (by decide)).1
    (Or.inl (by decide))

/-- One walk step preserves an already-set STANDARD_INFORMATION block,
an already-set object_id, and an already-set reparse pair. -/
theorem stepAttr_preserve (acc : ScanAcc) (t : Nat) (attr : List Nat)
    (nm : Option (List Nat)) (nr : Bool) (acc1 : ScanAcc)
    (h : stepAttr acc t attr nm nr = Except.ok acc1) :
    (acc.created ≠ none →
      acc1.created = acc.created ∧ acc1.modified = acc.modified ∧
      acc1.mft_modified = acc.mft_modified ∧ acc1.accessed = acc.accessed ∧
      acc1.file_attributes = acc.file_attributes ∧ acc1.owner_id = acc.owner_id ∧
      acc1.security_id = acc.security_id ∧ acc1.usn = acc.usn) ∧
    (acc.object_id ≠ none → acc1.object_id = acc.object_id) ∧
    (acc.reparse_tag ≠ none → acc1.reparse_tag = acc.reparse_tag ∧
      acc1.reparse_target = acc.reparse_target) := by
  by_cases h30 : t = 0x30
  · simp only [stepAttr, if_pos h30] at h
    cases hpf : parse_filename attr <;> rw [hpf] at h <;> injection h with h <;> subst h <;>
      exact ⟨fun _ => ⟨rfl, rfl, rfl, rfl, rfl, rfl, rfl, rfl⟩, fun _ => rfl,
             fun _ => ⟨rfl, rfl⟩⟩
  by_cases h80 : t = 0x80
  · simp only [stepAttr, if_neg h30, if_pos h80] at h
    cases hpd : parse_data_attribute attr nm nr <;> rw [hpd] at h <;> injection h with h <;>
      subst h <;>
      exact ⟨fun _ => ⟨rfl, rfl, rfl, rfl, rfl, rfl, rfl, rfl⟩, fun _ => rfl,
             fun _ => ⟨rfl, rfl⟩⟩
  by_cases h10 : t = 0x10
  · simp only [stepAttr, if_neg h30, if_neg h80, if_pos h10] at h
    by_cases hc : acc.created = none
    · rw [if_pos hc] at h
      cases hsi : parse_standard_information attr with
      | error e => rw [hsi] at h; exact absurd h (by simp)
      | ok o =>
        rw [hsi] at h
        cases o with
        | none =>
          injection h with h
          subst h
          exact ⟨fun _ => ⟨rfl, rfl, rfl, rfl, rfl, rfl, rfl, rfl⟩, fun _ => rfl,
                 fun _ => ⟨rfl, rfl⟩⟩
        | some si =>
          injection h with h
          subst h
          exact ⟨fun hcc => absurd hc hcc, fun _ => rfl, fun _ => ⟨rfl, rfl⟩⟩
    · rw [if_neg hc] at h
      injection h with h
      subst h
      exact ⟨fun _ => ⟨rfl, rfl, rfl, rfl, rfl, rfl, rfl, rfl⟩, fun _ => rfl,
             fun _ => ⟨rfl, rfl⟩⟩
  by_cases h40 : t = 0x40
  · simp only [stepAttr, if_neg h30, if_neg h80, if_neg h10, if_pos h40] at h
    by_cases ho : acc.object_id = none
    · rw [if_pos ho] at h
      cases hoid : parse_object_id attr with
      | error e => rw [hoid] at h; exact absurd h (by simp)
      | ok oid =>
        rw [hoid] at h
        injection h with h
        subst h
        exact ⟨fun _ => ⟨rfl, rfl, rfl, rfl, rfl, rfl, rfl, rfl⟩,
               fun hoo => absurd ho hoo, fun _ => ⟨rfl, rfl⟩⟩
    · rw [if_neg ho] at h
      injection h with h
      subst h
      exact ⟨fun _ => ⟨rfl, rfl, rfl, rfl, rfl, rfl, rfl, rfl⟩, fun _ => rfl,
             fun _ => ⟨rfl, rfl⟩⟩
  by_cases hC0 : t = 0xC0
  · simp only [stepAttr, if_neg h30, if_neg h80, if_neg h10, if_neg h40, if_pos hC0] at h
    by_cases hr : acc.reparse_tag = none
    · rw [if_pos hr] at h
      cases hrp : parse_reparse_point attr with
      | error e => rw [hrp] at h; exact absurd h (by simp)
      | ok o =>
        rw [hrp] at h
        cases o with
        | none =>
          injection h with h
          subst h
          exact ⟨fun _ => ⟨rfl, rfl, rfl, rfl, rfl, rfl, rfl, rfl⟩, fun _ => rfl,
                 fun _ => ⟨rfl, rfl⟩⟩
        | some p =>
          obtain ⟨tag, target⟩ := p
          injection h with h
          subst h
          exact ⟨fun _ => ⟨rfl, rfl, rfl, rfl, rfl, rfl, rfl, rfl⟩, fun _ => rfl,
                 fun hrr => absurd hr hrr⟩
    · rw [if_neg hr] at h
      injection h with h
      subst h
      exact ⟨fun _ => ⟨rfl, rfl, rfl, rfl, rfl, rfl, rfl, rfl⟩, fun _ => rfl,
             fun _ => ⟨rfl, rfl⟩⟩
  by_cases hD0 : t = 0xD0
  · simp only [stepAttr, if_neg h30, if_neg h80, if_neg h10, if_neg h40, if_neg hC0,
      if_pos hD0] at h
    injection h with h
    subst h
    exact ⟨fun _ => ⟨rfl, rfl, rfl, rfl, rfl, rfl, rfl, rfl⟩, fun _ => rfl,
           fun _ => ⟨rfl, rfl⟩⟩
  · simp only [stepAttr, if_neg h30, if_neg h80, if_neg h10, if_neg h40, if_neg hC0,
      if_neg hD0] at h
    injection h with h
    subst h
    exact ⟨fun _ => ⟨rfl, rfl, rfl, rfl, rfl, rfl, rfl, rfl⟩, fun _ => rfl,
           fun _ => ⟨rfl, rfl⟩⟩

/-- Claim C2 (amended): during the attribute walk, once the
STANDARD_INFORMATION block (resp. object_id, resp. the reparse pair) has
been set, later attributes of that type contribute nothing: the walk
returns it unchanged. Together with the counterexample this corrects the
claim to: the first successfully decoded occurrence of each of these
types is retained; a later occurrence is decoded only while every
earlier one has failed to decode. -/
theorem c2_first_success_retained (record : List Nat) (fuel offset : Nat)
    (acc acc2 : ScanAcc) (h : walkAttrs record fuel offset acc = Except.ok acc2) :
    (acc.created ≠ none →
      acc2.created = acc.created ∧ acc2.modified = acc.modified ∧
      acc2.mft_modified = acc.mft_modified ∧ acc2.accessed = acc.accessed ∧
      acc2.file_attributes = acc.file_attributes ∧ acc2.owner_id = acc.owner_id ∧
      acc2.security_id = acc.security_id ∧ acc2.usn = acc.usn) ∧
    (acc.object_id ≠ none → acc2.object_id = acc.object_id) ∧
    (acc.reparse_tag ≠ none → acc2.reparse_tag = acc.reparse_tag ∧
      acc2.reparse_target = acc.reparse_target) := by
  induction fuel generalizing offset acc with
  | zero =>
    simp only [walkAttrs] at h
    injection h with h
    subst h
    exact ⟨fun _ => ⟨rfl, rfl, rfl, rfl, rfl, rfl, rfl, rfl⟩, fun _ => rfl,
           fun _ => ⟨rfl, rfl⟩⟩
  | succ fuel ih =>
    simp only [walkAttrs] at h
    split at h
    · injection h with h
      subst h
      exact ⟨fun _ => ⟨rfl, rfl, rfl, rfl, rfl, rfl, rfl, rfl⟩, fun _ => rfl,
             fun _ => ⟨rfl, rfl⟩⟩
    · rename_i t len nr nm hph
      split at h
      · exact absurd h (by simp)
      · rename_i acc1 hst
        have hstep := stepAttr_preserve acc t _ nm nr acc1 hst
        have hrec := ih (offset + len) acc1 h
        refine ⟨fun hc => ?_, fun ho => ?_, fun hr => ?_⟩
        · have hp := hstep.1 hc
          have hc1 : acc1.created ≠ none := by rw [hp.1]; exact hc
          have hq := hrec.1 hc1
          exact ⟨hq.1.trans hp.1, hq.2.1.trans hp.2.1, hq.2.2.1.trans hp.2.2.1,
                 hq.2.2.2.1.trans hp.2.2.2.1, hq.2.2.2.2.1.trans hp.2.2.2.2.1,
                 hq.2.2.2.2.2.1.trans hp.2.2.2.2.2.1,
                 hq.2.2.2.2.2.2.1.trans hp.2.2.2.2.2.2.1,
                 hq.2.2.2.2.2.2.2.trans hp.2.2.2.2.2.2.2⟩
        · have hp := hstep.2.1 ho
          have ho1 : acc1.object_id ≠ none := by rw [hp]; exact ho
          exact (hrec.2.1 ho1).trans hp
        · have hp := hstep.2.2 hr
          have hr1 : acc1.reparse_tag ≠ none := by rw [hp.1]; exact hr
          have hq := hrec.2.2 hr1
          exact ⟨hq.1.trans hp.1, hq.2.trans hp.2⟩

/-- Claim C2 counterexample: on exC2img the first STANDARD_INFORMATION
(zero FILETIMEs) fails to decode, and the produced entry nevertheless
carries the timestamps of the second STANDARD_INFORMATION, so a later
occurrence did contribute. -/
theorem c2_counterexample :
    parse_standard_information (sliceBytes exC2img 56 128) = Except.ok none ∧
    (scan_ntfs_image exC2img).map (fun es => es.map (fun e => e.created)) =
      (Except.ok [some ⟨0, 0⟩] : Except Unit (List (Option UtcInstant))) :=
  ⟨rfl, rfl⟩

/-- Claim C2 witness: walking exC2rec (a decodable STANDARD_INFORMATION
followed by an OBJECT_ID) from the accumulator exC2accIn whose block is
already set leaves the whole STANDARD_INFORMATION block unchanged even
though the walk does fill the object_id. -/
theorem c2_witness :
    exC2accOut.created = exC2accIn.created ∧
    exC2accOut.modified = exC2accIn.modified ∧
    exC2accOut.mft_modified = exC2accIn.mft_modified ∧
    exC2accOut.accessed = exC2accIn.accessed ∧
    exC2accOut.file_attributes = exC2accIn.file_attributes ∧
    exC2accOut.owner_id = exC2accIn.owner_id ∧
    exC2accOut.security_id = exC2accIn.security_id ∧
    exC2accOut.usn = exC2accIn.usn :=
  (c2_first_success_retained exC2rec (exC2rec.length + 1) 0 exC2accIn exC2accOut
    (by rfl)).1 (by decide)

/-- The reparse decoder attaches a target only under the symlink or
junction tag. -/
theorem parse_reparse_point_tag (attr : List Nat) (tag : Nat) (tgt : List Nat)
    (h : parse_reparse_point attr = Except.ok (some (tag, some tgt))) :
    tag = 0xA000000C ∨ tag = 0xA0000003 := by
  simp only [parse_reparse_point] at h
  split at h
  · exact absurd h (by simp)
  · split at h
    · exact absurd h (by simp)
    · simp only [Except.ok.injEq, Option.some.injEq, Prod.mk.injEq] at h
      obtain ⟨h1, h2⟩ := h
      subst h1
      by_cases hcond : readU32 (siContent attr) 0 = 0xA000000C ∨
          readU32 (siContent attr) 0 = 0xA0000003
      · exact hcond
      · rw [if_neg hcond] at h2
        exact absurd h2 (by simp)

/-- The walk preserves the invariant that a set reparse target is
accompanied by a symlink or junction tag. -/
theorem walk_reparse_inv (record : List Nat) (fuel offset : Nat)
    (acc acc2 : ScanAcc) (h : walkAttrs record fuel offset acc = Except.ok acc2)
    (hinv : acc.reparse_target ≠ none →
      ∃ tag, acc.reparse_tag = some tag ∧ (tag = 0xA000000C ∨ tag = 0xA0000003)) :
    acc2.reparse_target ≠ none →
      ∃ tag, acc2.reparse_tag = some tag ∧ (tag = 0xA000000C ∨ tag = 0xA0000003) := by
  induction fuel generalizing offset acc with
  | zero =>
    simp only [walkAttrs] at h
    injection h with h
    subst h
    exact hinv
  | succ fuel ih =>
    simp only [walkAttrs] at h
    split at h
    · injection h with h
      subst h
      exact hinv
    · rename_i t len nr nm hph
      split at h
      · exact absurd h (by simp)
      · rename_i acc1 hst
        refine ih (offset + len) acc1 h ?_
        by_cases hC0 : t = 0xC0
        · simp only [stepAttr, hC0] at hst
          norm_num at hst
          by_cases hr : acc.reparse_tag = none
          · rw [if_pos hr] at hst
            cases hrp : parse_reparse_point (sliceBytes record offset (offset + len)) with
            | error e => rw [hrp] at hst; exact absurd hst (by simp)
            | ok o =>
              rw [hrp] at hst
              cases o with
              | none =>
                injection hst with hst
                subst hst
                exact hinv
              | some p =>
                obtain ⟨tag, target⟩ := p
                injection hst with hst
                subst hst
                intro htgt
                cases htarget : target with
                | none => rw [htarget] at htgt; exact absurd rfl htgt
                | some tgt =>
                  subst htarget
                  exact ⟨tag, rfl, parse_reparse_point_tag _ tag tgt hrp⟩
          · rw [if_neg hr] at hst
            injection hst with hst
            subst hst
            exact hinv
        · have hp := (stepAttr_preserve acc t _ nm nr acc1 hst).2.2
          by_cases hr : acc.reparse_tag = none
          · -- the reparse pair can only be written by the 0xC0 arm
            have hkeep : acc1.reparse_tag = acc.reparse_tag ∧
                acc1.reparse_target = acc.reparse_target := by
              by_cases h30 : t = 0x30
              · simp only [stepAttr, if_pos h30] at hst
                cases hpf : parse_filename (sliceBytes record offset (offset + len)) <;>
                  rw [hpf] at hst <;> injection hst with hst <;> subst hst <;> exact ⟨rfl, rfl⟩
              by_cases h80 : t = 0x80
              · simp only [stepAttr, if_neg h30, if_pos h80] at hst
                cases hpd : parse_data_attribute (sliceBytes record offset (offset + len)) nm nr <;>
                  rw [hpd] at hst <;> injection hst with hst <;> subst hst <;> exact ⟨rfl, rfl⟩
              by_cases h10 : t = 0x10
              · simp only [stepAttr, if_neg h30, if_neg h80, if_pos h10] at hst
                by_cases hc : acc.created = none
                · rw [if_pos hc] at hst
                  cases hsi : parse_standard_information (sliceBytes record offset (offset + len)) with
                  | error e => rw [hsi] at hst; exact absurd hst (by simp)
                  | ok o =>
                    rw [hsi] at hst
                    cases o with
                    | none => injection hst with hst; subst hst; exact ⟨rfl, rfl⟩
                    | some si => injection hst with hst; subst hst; exact ⟨rfl, rfl⟩
                · rw [if_neg hc] at hst
                  injection hst with hst
                  subst hst
                  exact ⟨rfl, rfl⟩
              by_cases h40 : t = 0x40
              · simp only [stepAttr, if_neg h30, if_neg h80, if_neg h10, if_pos h40] at hst
                by_cases ho : acc.object_id = none
                · rw [if_pos ho] at hst
                  cases hoid : parse_object_id (sliceBytes record offset (offset + len)) with
                  | error e => rw [hoid] at hst; exact absurd hst (by simp)
                  | ok oid => rw [hoid] at hst; injection hst with hst; subst hst; exact ⟨rfl, rfl⟩
                · rw [if_neg ho] at hst
                  injection hst with hst
                  subst hst
                  exact ⟨rfl, rfl⟩
              by_cases hD0 : t = 0xD0
              · simp only [stepAttr, if_neg h30, if_neg h80, if_neg h10, if_neg h40,
                  if_neg hC0, if_pos hD0] at hst
                injection hst with hst
                subst hst
                exact ⟨rfl, rfl⟩
              · simp only [stepAttr, if_neg h30, if_neg h80, if_neg h10, if_neg h40,
                  if_neg hC0, if_neg hD0] at hst
                injection hst with hst
                subst hst
                exact ⟨rfl, rfl⟩
            intro htgt
            rw [hkeep.1, hkeep.2] at *
            exact hinv (by rwa [hkeep.2] at htgt)
          · have hq := hp hr
            intro htgt
            obtain ⟨tag, htag, hset⟩ := hinv (by rwa [hq.2] at htgt)
            exact ⟨tag, hq.1.trans htag, hset⟩

/-- Membership in the scan output comes from a successful record parse
at some candidate offset. -/
theorem mem_filterMapE (f : Nat → Except Unit (Option NtfsEntry)) (l : List Nat)
    (es : List NtfsEntry) (h : filterMapE f l = Except.ok es) (e : NtfsEntry)
    (he : e ∈ es) : ∃ i, i ∈ l ∧ f i = Except.ok (some e) := by
  induction l generalizing es with
  | nil =>
    simp only [filterMapE] at h
    injection h with h
    subst h
    cases he
  | cons i rest ih =>
    simp only [filterMapE] at h
    split at h
    · exact absurd h (by simp)
    · obtain ⟨j, hj, hfj⟩ := ih es h he
      exact ⟨j, List.mem_cons_of_mem _ hj, hfj⟩
    · rename_i x hfi
      cases hrest : filterMapE f rest with
      | error er =>
        rw [hrest] at h
        have h2 : (Except.error er : Except Unit (List NtfsEntry)) = Except.ok es := h
        exact absurd h2 (by simp)
      | ok es2 =>
        rw [hrest] at h
        have h2 : Except.ok (x :: es2) = (Except.ok es : Except Unit (List NtfsEntry)) := h
        injection h2 with h2
        subst h2
        cases he with
        | head => exact ⟨i, List.mem_cons_self i rest, hfi⟩
        | tail _ hmem =>
          obtain ⟨j, hj, hfj⟩ := ih es2 hrest hmem
          exact ⟨j, List.mem_cons_of_mem _ hj, hfj⟩

/-- Claim C9: in every entry the scanner yields, a present reparse_target
implies a present reparse_tag equal to the symlink tag 0xA000000C or the
junction tag 0xA0000003. -/
theorem c9_reparse_target_tag (buf : List Nat) (es : List NtfsEntry) (e : NtfsEntry)
    (h1 : scan_ntfs_image buf = Except.ok es) (h2 : e ∈ es)
    (h3 : e.reparse_target ≠ none) :
    ∃ tag, e.reparse_tag = some tag ∧ (tag = 0xA000000C ∨ tag = 0xA0000003) := by
  obtain ⟨i, _, hfi⟩ := mem_filterMapE _ _ es h1 e h2
  obtain ⟨acc, hwalk, hasm⟩ := parse_record_ok_some buf i 1024 e hfi
  obtain ⟨hne, he⟩ := assemble_spec _ acc e hasm
  have hinv := walk_reparse_inv _ _ _ initAcc acc hwalk
    (fun ht => absurd rfl ht)
  have htgt : acc.reparse_target ≠ none := by
    rw [he] at h3
    exact h3
  obtain ⟨tag, htag, hset⟩ := hinv htgt
  refine ⟨tag, ?_, hset⟩
  rw [he]
  exact htag

/-- Claim C9 witness: the scanner applied to exC9img yields an entry
with target "b" and the symlink tag. -/
theorem c9_witness :
    ∃ tag, exC9entry.reparse_tag = some tag ∧ (tag = 0xA000000C ∨ tag = 0xA0000003) :=
  c9_reparse_target_tag exC9img [exC9entry] exC9entry (by rfl)
    (List.mem_singleton.mpr rfl) (by decide)

/-- Wrapping an already-wrapped left summand changes nothing: i64
wrapping addition factors through the representative. -/
theorem wrapI64_add_left (a b : Int) : wrapI64 (wrapI64 a + b) = wrapI64 (a + b) := by
  unfold wrapI64
  omega

/-- In the run metadata, a sparse encoding (offset_bytes 0) always
carries delta 0. -/
theorem runMeta_sparse_zero (attr : List Nat) (fuel : Nat) :
    ∀ offset m, m ∈ runMeta attr fuel offset → m.1 = 0 → m.2 = 0 := by
  induction fuel with
  | zero => intro offset m hm; simp [runMeta] at hm
  | succ fuel ih =>
    intro offset m hm hz
    simp only [runMeta] at hm
    by_cases h1 : offset < attr.length
    · rw [if_pos h1] at hm
      by_cases h2 : attr.getD offset 0 = 0
      · rw [if_pos h2] at hm; simp at hm
      · rw [if_neg h2] at hm
        by_cases h3 : attr.getD offset 0 % 16 = 0 ∨ 8 < attr.getD offset 0 % 16 ∨
            8 < attr.getD offset 0 / 16 % 16
        · rw [if_pos h3] at hm; simp at hm
        · rw [if_neg h3] at hm
          by_cases h4 : attr.length < offset + 1 + attr.getD offset 0 % 16 +
              attr.getD offset 0 / 16 % 16
          · rw [if_pos h4] at hm; simp at hm
          · rw [if_neg h4] at hm
            cases hm with
            | head =>
              simp only at hz ⊢
              rw [hz] at *
              simp only [if_neg (by simp [hz] : ¬(0 < (0:Nat) ∧
                attr.getD (offset + 1 + attr.getD offset 0 % 16 + 0 - 1) 0 &&& 0x80 ≠ 0))]
              simp [hz, leVal]
            | tail _ hmem => exact ih _ m hmem hz
    · rw [if_neg h1] at hm; simp at hm

/-- The decoded runs and the run metadata have equal length, and each
run's cluster_offset is the wrapped sum of the starting LCN and the
deltas of all runs up to and including it. -/
theorem runs_loop_spec (attr : List Nat) (fuel : Nat) :
    ∀ offset lcn,
      (parse_data_runs_loop attr fuel offset lcn).length =
        (runMeta attr fuel offset).length ∧
      ∀ i, i < (parse_data_runs_loop attr fuel offset lcn).length →
        ((parse_data_runs_loop attr fuel offset lcn).getD i ⟨0, 0⟩).cluster_offset =
          wrapI64 (lcn +
            (((runMeta attr fuel offset).map (fun m => m.2)).take (i + 1)).sum) := by
  induction fuel with
  | zero =>
    intro offset lcn
    exact ⟨rfl, fun i hi => absurd hi (by simp [parse_data_runs_loop])⟩
  | succ fuel ih =>
    intro offset lcn
    simp only [parse_data_runs_loop, runMeta]
    by_cases h1 : offset < attr.length
    case neg => simp only [if_neg h1]; exact ⟨rfl, fun i hi => absurd hi (by simp)⟩
    simp only [if_pos h1]
    by_cases h2 : attr.getD offset 0 = 0
    · simp only [if_pos h2]; exact ⟨rfl, fun i hi => absurd hi (by simp)⟩
    simp only [if_neg h2]
    by_cases h3 : attr.getD offset 0 % 16 = 0 ∨ 8 < attr.getD offset 0 % 16 ∨
        8 < attr.getD offset 0 / 16 % 16
    · simp only [if_pos h3]; exact ⟨rfl, fun i hi => absurd hi (by simp)⟩
    simp only [if_neg h3]
    by_cases h4 : attr.length < offset + 1 + attr.getD offset 0 % 16 +
        attr.getD offset 0 / 16 % 16
    · simp only [if_pos h4]; exact ⟨rfl, fun i hi => absurd hi (by simp)⟩
    simp only [if_neg h4]
    constructor
    · simp only [List.length_cons]
      exact congrArg (· + 1) (ih _ _).1
    · intro i hi
      cases i with
      | zero =>
        simp only [List.getD_cons_zero, List.map_cons, List.take_succ_cons,
          List.take_zero, List.sum_cons, List.sum_nil, add_zero]
      | succ j =>
        simp only [List.length_cons] at hi
        have hj := Nat.lt_of_succ_lt_succ hi
        have hrec := (ih _ _).2 j hj
        simp only [List.getD_cons_succ, List.map_cons, List.take_succ_cons, List.sum_cons]
        rw [hrec, wrapI64_add_left, add_assoc]

/-- getD at an in-bounds index is the indexed element. -/
theorem getD_eq_getElem_of_lt {α : Type} (l : List α) (d : α) (i : Nat)
    (h : i < l.length) : l.getD i d = l[i] := by
  rw [List.getD_eq_getElem?_getD, List.getElem?_eq_getElem h]
  rfl

/-- Claim C4: whenever parse_data_runs yields runs, each run's
cluster_offset is the wrapped cumulative sum of the signed sign-extended
deltas of all runs up to and including it (the deltas and their encoded
offset-byte widths are given by runMeta, which mirrors the decoding loop
and its stopping conditions: zero header, length_bytes outside 1..8,
offset_bytes above 8, bounds failure); a run encoded with offset_bytes 0
contributes delta 0, so its cluster_offset equals the previous run's
cluster_offset, or 0 for the first run. -/
theorem c4_data_run_offsets (attr : List Nat) (runs : List DataRun)
    (h : parse_data_runs attr = some runs) :
    runs.length = (runMeta attr (attr.length + 1) (readU16 attr 32)).length ∧
    (∀ i, i < runs.length →
      (runs.getD i ⟨0, 0⟩).cluster_offset =
        wrapI64 ((((runMeta attr (attr.length + 1) (readU16 attr 32)).map
          (fun m => m.2)).take (i + 1)).sum)) ∧
    (∀ i, i < runs.length →
      ((runMeta attr (attr.length + 1) (readU16 attr 32)).getD i (0, 0)).1 = 0 →
      ((runMeta attr (attr.length + 1) (readU16 attr 32)).getD i (0, 0)).2 = 0 ∧
      (i = 0 → (runs.getD i ⟨0, 0⟩).cluster_offset = 0) ∧
      (∀ j, i = j + 1 → (runs.getD i ⟨0, 0⟩).cluster_offset =
        (runs.getD j ⟨0, 0⟩).cluster_offset)) := by
  simp only [parse_data_runs] at h
  split at h
  · exact absurd h (by simp)
  · split at h
    · exact absurd h (by simp)
    · split at h
      · exact absurd h (by simp)
      · injection h with h
        subst h
        obtain ⟨hlen, hoff⟩ := runs_loop_spec attr (attr.length + 1) (readU16 attr 32) 0
        refine ⟨hlen, fun i hi => ?_, fun i hi hz => ?_⟩
        · have hx := hoff i hi
          rwa [zero_add] at hx
        · have hmlt : i < (runMeta attr (attr.length + 1) (readU16 attr 32)).length := by
            rw [← hlen]; exact hi
          rw [getD_eq_getElem_of_lt _ (0, 0) i hmlt] at hz ⊢
          have hz2 := runMeta_sparse_zero attr (attr.length + 1) (readU16 attr 32) _
            (List.getElem_mem hmlt) hz
          refine ⟨hz2, fun hi0 => ?_, fun j hij => ?_⟩
          · subst hi0
            have h0 := hoff 0 hi
            rw [zero_add, List.sum_take_succ _ 0
              (by rw [List.length_map, ← hlen]; exact hi)] at h0
            rw [List.take_zero, List.sum_nil, zero_add] at h0
            rw [List.getElem_map] at h0
            rw [hz2] at h0
            rw [h0]
            decide
          · subst hij
            have ha := hoff (j + 1) hi
            have hb := hoff j (Nat.lt_of_succ_lt hi)
            rw [zero_add] at ha hb
            rw [List.sum_take_succ _ (j + 1)
              (by rw [List.length_map, ← hlen]; exact hi)] at ha
            rw [List.getElem_map] at ha
            rw [hz2, add_zero] at ha
            rw [ha, hb]

/-- Claim C4 witness: on exC4attr the decoded runs are a sparse run
(cluster_offset 0, the starting LCN) followed by a run at LCN 64; the
second run's offset is the wrapped sum of the deltas 0 and 64. -/
theorem c4_witness :
    ((parse_data_runs_loop exC4attr (exC4attr.length + 1) (readU16 exC4attr 32) 0).getD 1
        ⟨0, 0⟩).cluster_offset =
      wrapI64 ((((runMeta exC4attr (exC4attr.length + 1) (readU16 exC4attr 32)).map
        (fun m => m.2)).take 2).sum) := by
  have h := (c4_data_run_offsets exC4attr
    (parse_data_runs_loop exC4attr (exC4attr.length + 1) (readU16 exC4attr 32) 0)
    (by rfl)).2.1 1 (by decide)
  exact h

/-- An accepted attribute header has positive length and stays inside
the record. -/
theorem parse_attr_header_bounds (buf : List Nat) (off t len : Nat) (nr : Bool)
    (nm : Option (List Nat)) (h : parse_attr_header buf off = some (t, len, nr, nm)) :
    1 ≤ len ∧ off + len ≤ buf.length ∧ off + 16 ≤ buf.length := by
  simp only [parse_attr_header] at h
  split at h
  · exact absurd h (by simp)
  · split at h
    · exact absurd h (by simp)
    · split at h
      · exact absurd h (by simp)
      · simp only [Option.some.injEq, Prod.mk.injEq] at h
        obtain ⟨h1, h2, h3, h4⟩ := h
        subst h2
        rename_i hb hl
        omega

/-- The attribute walk is fuel-insensitive once the fuel exceeds the
number of bytes left in the record: the canonical fuel record.length + 1
is always sufficient, so the fuel encoding is faithful to the source's
unbounded while loop. -/
theorem walkAttrs_fuel_irrelevant (record : List Nat) :
    ∀ f1 f2 offset acc, record.length - offset < f1 → record.length - offset < f2 →
      walkAttrs record f1 offset acc = walkAttrs record f2 offset acc := by
  intro f1
  induction f1 with
  | zero => intro f2 offset acc h1 h2; exact absurd h1 (Nat.not_lt_zero _)
  | succ a ih =>
    intro f2 offset acc h1 h2
    cases f2 with
    | zero => exact absurd h2 (Nat.not_lt_zero _)
    | succ b =>
      simp only [walkAttrs]
      split
      · rfl
      · rename_i t len nr nm hph
        obtain ⟨hl1, hl2, hl3⟩ := parse_attr_header_bounds record offset t len nr nm hph
        split
        · rfl
        · exact ih b (offset + len) _ (by omega) (by omega)

/-- The data-run loop is fuel-insensitive once the fuel exceeds the
number of bytes left in the attribute: each iteration consumes at least
two bytes, so the canonical fuel attr.length + 1 is always sufficient. -/
theorem parse_data_runs_loop_fuel_irrelevant (attr : List Nat) :
    ∀ f1 f2 offset lcn, attr.length - offset < f1 → attr.length - offset < f2 →
      parse_data_runs_loop attr f1 offset lcn = parse_data_runs_loop attr f2 offset lcn := by
  intro f1
  induction f1 with
  | zero => intro f2 offset lcn h1 h2; exact absurd h1 (Nat.not_lt_zero _)
  | succ a ih =>
    intro f2 offset lcn h1 h2
    cases f2 with
    | zero => exact absurd h2 (Nat.not_lt_zero _)
    | succ b =>
      simp only [parse_data_runs_loop]
      by_cases hc1 : offset < attr.length
      case neg => simp only [if_neg hc1]
      simp only [if_pos hc1]
      by_cases hc2 : attr.getD offset 0 = 0
      · simp only [if_pos hc2]
      simp only [if_neg hc2]
      by_cases hc3 : attr.getD offset 0 % 16 = 0 ∨ 8 < attr.getD offset 0 % 16 ∨
          8 < attr.getD offset 0 / 16 % 16
      · simp only [if_pos hc3]
      simp only [if_neg hc3]
      by_cases hc4 : attr.length < offset + 1 + attr.getD offset 0 % 16 +
          attr.getD offset 0 / 16 % 16
      · simp only [if_pos hc4]
      simp only [if_neg hc4]
      have hlb : 1 ≤ attr.getD offset 0 % 16 := by omega
      rw [ih b _ _ (by omega) (by omega)]
